import Mathlib

/-!
Verification of the SmartCV Job Finder backend (`backend/main.py`).

The development shallowly embeds the job-matching pipeline of the backend:
the rule-based CV analyzer (`analyze_cv_rule_based`), the keyword builder
(`build_keywords_from_analysis`), the provider adapters
(`search_jobs_remotive`, `search_jobs_remoteok`, `search_jobs_arbeitnow`,
`search_jobs_adzuna`), the deduplicating aggregator (`_dedupe_jobs`,
`find_jobs`), the placeholder fallback (`mocked_jobs`), and the `/analyze`
entry point.

Python strings are modelled as Lean `String` (both count characters as code
points); Python string operations (`strip`, `lower`, slicing, `in`) are
modelled character-wise, faithful to CPython on ASCII data.  Python integers
are `Int` where sign matters (user-supplied limits) and `Nat` where the
source can only produce non-negative values.  Untrusted JSON payloads are
modelled by the inductive `JVal`, and Python code that can raise is modelled
in `Except PyErr`; network requests are modelled by an `Option JVal`
parameter (`none` = transport error / timeout / non-2xx / unparsable body,
which the source collapses into one `except` branch).
-/

namespace SmartCV

/-- Python `str.strip()` / `\s` whitespace set, ASCII fragment:
space, tab, newline, carriage return, vertical tab, form feed. -/
def pySpace (c : Char) : Bool :=
  c = ' ' || c = '\t' || c = '\n' || c = '\r' || c = '\x0b' || c = '\x0c'

/-- Python `\w` word character (ASCII fragment): alphanumeric or underscore. -/
def wordChar (c : Char) : Bool :=
  c.isAlphanum || c = '_'

/-- Python `str.lower()` (ASCII fragment; the lexicon and all literals in the
source are ASCII). -/
def lowerStr (s : String) : String :=
  String.mk (s.toList.map Char.toLower)

/-- Python `str.strip()`: drop leading and trailing whitespace. -/
def pyStrip (s : String) : String :=
  String.mk (((s.toList.dropWhile pySpace).reverse.dropWhile pySpace).reverse)

/-- Python slicing `s[:n]` for `n ≥ 0`. -/
def strTake (s : String) (n : Nat) : String :=
  String.mk (s.toList.take n)

/-- Whether `needle` occurs as a contiguous sublist of `hay`
(Python `needle in hay` on strings). -/
def subListOf (needle : List Char) : List Char → Bool
  | [] => needle.isEmpty
  | c :: rest => needle.isPrefixOf (c :: rest) || subListOf needle rest

/-- Python substring test `needle in hay`. -/
def strContains (hay needle : String) : Bool :=
  subListOf needle.toList hay.toList

/-- A canonical job posting (`JobItem` pydantic model of the source:
`title`, `company`, `location`, `description`, `apply_link`, `source`). -/
structure JobItem where
  title : String
  company : String
  location : String
  description : String
  apply_link : String
  source : Option String
deriving DecidableEq, Repr

/-- A structured CV profile (`AnalysisResult` pydantic model of the source). -/
structure AnalysisResult where
  job_titles : List String
  skills : List String
  experience_level : String
  recommended_job_types : List String
  summary : Option String
deriving DecidableEq, Repr

/-- Env-configured fallback location (`DEFAULT_JOB_LOCATION`, default `"Remote"`). -/
def DEFAULT_JOB_LOCATION : String := "Remote"

/-- The dedup key the source computes inline in `_dedupe_jobs`:
`(j.apply_link or "").strip().lower() or f"{j.title}|{j.company}".lower()`.
Note the fallback is lower-cased but not stripped. -/
def dedupeKey (j : JobItem) : String :=
  let k := lowerStr (pyStrip j.apply_link)
  if k = "" then lowerStr (j.title ++ "|" ++ j.company) else k

/-- Loop of `_dedupe_jobs`: keep the first posting for each key
(`seen` is the set of keys already emitted, `acc` the reversed output),
stopping once the output reaches `limit` (the check happens after appending,
as in the source). -/
def dedupeJobsGo (limit : Int) : List String → List JobItem → List JobItem → List JobItem
  | _, acc, [] => acc.reverse
  | seen, acc, j :: rest =>
    let key := dedupeKey j
    if key ∈ seen then dedupeJobsGo limit seen acc rest
    else if ((j :: acc).length : Int) ≥ limit then (j :: acc).reverse
    else dedupeJobsGo limit (key :: seen) (j :: acc) rest

/-- `_dedupe_jobs(jobs, limit)` of the source. -/
def dedupe_jobs (jobs : List JobItem) (limit : Int) : List JobItem :=
  dedupeJobsGo limit [] [] jobs

/-- Generic first-wins deduplication by a key function with the same
stop-at-limit behaviour; used to state what the spec says the dedup key is. -/
def dedupeByKeyGo (key : JobItem → String) (limit : Int) :
    List String → List JobItem → List JobItem → List JobItem
  | _, acc, [] => acc.reverse
  | seen, acc, j :: rest =>
    if key j ∈ seen then dedupeByKeyGo key limit seen acc rest
    else if ((j :: acc).length : Int) ≥ limit then (j :: acc).reverse
    else dedupeByKeyGo key limit (key j :: seen) (j :: acc) rest

/-- One-pass first-wins dedup by `key`, stopping at `limit`. -/
def dedupeByKey (key : JobItem → String) (jobs : List JobItem) (limit : Int) : List JobItem :=
  dedupeByKeyGo key limit [] [] jobs

/-- The identity key exactly as claimed by the spec: lower-cased trimmed
`apply_link` when that is non-empty, otherwise the lower-cased **trimmed**
`"{title}|{company}"`. -/
def claimedKey (j : JobItem) : String :=
  let k := lowerStr (pyStrip j.apply_link)
  if k = "" then lowerStr (pyStrip (j.title ++ "|" ++ j.company)) else k

/-- The identity key the code actually uses, restated standalone: lower-cased
trimmed `apply_link` when non-empty, otherwise the lower-cased (untrimmed)
`"{title}|{company}"`. -/
def amendedKey (j : JobItem) : String :=
  let k := lowerStr (pyStrip j.apply_link)
  if k = "" then lowerStr (j.title ++ "|" ++ j.company) else k

/-- `mocked_jobs(analysis, location, limit)` of the source: two synthesized
placeholder postings, sliced to `max(1, min(limit, 2))`. -/
def pyTitleGo : Bool → List Char → List Char
  | _, [] => []
  | prevAlpha, c :: rest =>
    (if c.isAlpha then (if prevAlpha then c.toLower else c.toUpper) else c) ::
      pyTitleGo c.isAlpha rest

/-- Python `str.title()` (ASCII fragment): the first letter of each
alphabetic run is upper-cased, the rest lower-cased. -/
def pyTitleCase (s : String) : String :=
  String.mk (pyTitleGo false s.toList)

/-- `mocked_jobs` of the source. -/
def mocked_jobs (analysis : AnalysisResult) (location : String) (limit : Int) : List JobItem :=
  let primary_title :=
    match analysis.job_titles with
    | [] => "Software Engineer"
    | t :: _ => if t = "" then "Software Engineer" else t
  let primary_type :=
    match analysis.recommended_job_types with
    | [] => primary_title
    | t :: _ => if t = "" then primary_title else t
  let base_jobs : List JobItem :=
    [⟨primary_title ++ " (" ++ pyTitleCase analysis.experience_level ++ " Level)",
      "SmartCV Labs", location,
      "Leverage your skills in a modern engineering environment.",
      "https://example.com/jobs/smartcv-labs", some "Mocked"⟩,
     ⟨primary_type ++ " - Remote Friendly",
      "FutureWork Global", location,
      "Join a distributed team solving real-world problems.",
      "https://example.com/jobs/futurework-global", some "Mocked"⟩]
  base_jobs.take (max 1 (min limit 2)).toNat

/-- `find_jobs` of the source, with the four provider calls abstracted into
their result lists (the adapters are network code; `find_jobs` concatenates
their results free providers first, Adzuna last). -/
def find_jobs (remotiveJobs remoteokJobs arbeitnowJobs adzunaJobs : List JobItem)
    (analysis : AnalysisResult) (location : Option String) (reqLimit : Int) : List JobItem :=
  let loc :=
    match location with
    | none => DEFAULT_JOB_LOCATION
    | some l => if l = "" then DEFAULT_JOB_LOCATION else l
  let limit := max 1 (min reqLimit 50)
  let collected := remotiveJobs ++ remoteokJobs ++ arbeitnowJobs ++ adzunaJobs
  let jobs := dedupe_jobs collected limit
  if jobs.isEmpty then mocked_jobs analysis loc limit else jobs

/-- `COMMON_SKILLS` lexicon of the source. -/
def COMMON_SKILLS : List String :=
  ["python", "java", "javascript", "typescript", "c++", "c#", "php", "ruby", "go", "rust", "sql",
   "react", "vue", "angular", "node.js", "django", "flask", "fastapi", "spring", "laravel",
   "pandas", "numpy", "scikit-learn", "tensorflow", "pytorch", "nlp", "computer vision",
   "docker", "kubernetes", "aws", "azure", "gcp", "ci/cd", "git",
   "excel", "power bi", "tableau", "linux", "bash"]

/-- `COMMON_JOB_TITLES` lexicon of the source. -/
def COMMON_JOB_TITLES : List String :=
  ["software engineer", "backend developer", "frontend developer", "full stack developer",
   "data analyst", "data scientist", "machine learning engineer", "devops engineer",
   "product manager", "project manager", "ui/ux designer", "qa engineer",
   "cybersecurity analyst"]

/-- Tail of the year regex after the digit group:
`\s*\+?\s*(?:years|yrs)\b`.  Matching is deterministic: the character
classes of `\s*`, `\+?` and the literal alternatives are pairwise disjoint,
so greedy consumption is the only possible parse. -/
def tryWord (w : List Char) (cs : List Char) : Option (List Char) :=
  if w.isPrefixOf cs then
    let rest := cs.drop w.length
    match rest with
    | [] => some []
    | c :: _ => if wordChar c then none else some rest
  else none

/-- Match `\s*\+?\s*(?:years|yrs)\b` at the head of `cs`, returning the
remainder after the match. -/
def matchYearsTail (cs : List Char) : Option (List Char) :=
  let cs1 := cs.dropWhile pySpace
  let cs2 := match cs1 with
    | '+' :: t => t
    | _ => cs1
  let cs3 := cs2.dropWhile pySpace
  match tryWord ['y', 'e', 'a', 'r', 's'] cs3 with
  | some rest => some rest
  | none => tryWord ['y', 'r', 's'] cs3

/-- Numeric value of an ASCII digit. -/
def digitVal (c : Char) : Nat := c.toNat - 48

/-- Match the whole regex `(\d{1,2})\s*\+?\s*(?:years|yrs)\b` at the head of
`cs`, returning the captured group's value and the remainder.  `\d{1,2}` is
greedy: two digits are tried first, then one (the one-digit fallback after a
two-digit failure mirrors the regex engine's backtracking, though it can
never succeed because the following character is then a digit). -/
def matchYearsAt (cs : List Char) : Option (Nat × List Char) :=
  match cs with
  | [] => none
  | c1 :: rest1 =>
    if c1.isDigit then
      match rest1 with
      | c2 :: rest2 =>
        if c2.isDigit then
          match matchYearsTail rest2 with
          | some after => some (digitVal c1 * 10 + digitVal c2, after)
          | none => (matchYearsTail rest1).map (fun after => (digitVal c1, after))
        else (matchYearsTail rest1).map (fun after => (digitVal c1, after))
      | [] => (matchYearsTail rest1).map (fun after => (digitVal c1, after))
    else none

/-- `re.finditer` scan: try the pattern at each position, left to right,
non-overlapping (resume after the end of each match).  The fuel starts at
the list length, which always suffices because every step consumes at least
one character. -/
def findYearsAux : Nat → List Char → List Nat
  | 0, _ => []
  | _ + 1, [] => []
  | fuel + 1, c :: rest =>
    match matchYearsAt (c :: rest) with
    | some (v, after) => v :: findYearsAux fuel after
    | none => findYearsAux fuel rest

/-- All captured values of `re.finditer(r"(\d{1,2})\s*\+?\s*(?:years|yrs)\b", text)`. -/
def findYears (cs : List Char) : List Nat :=
  findYearsAux cs.length cs

/-- Python `max(years) if years else 0`. -/
def pyMaxNat (l : List Nat) : Nat :=
  match l with
  | [] => 0
  | y :: ys => ys.foldl Nat.max y

/-- `analyze_cv_rule_based` of the source. -/
def analyze_cv_rule_based (cv_text : String) : AnalysisResult :=
  let text := lowerStr cv_text
  let skills :=
    List.insertionSort (· ≤ ·)
      ((COMMON_SKILLS.filter (fun s => strContains text (lowerStr s))).dedup)
  let job_titles :=
    List.insertionSort (· ≤ ·)
      ((COMMON_JOB_TITLES.filter (fun t => strContains text (lowerStr t))).dedup)
  let years := findYears text.toList
  let max_years := pyMaxNat years
  let experience_level :=
    if strContains text "intern" || strContains text "student" then "student"
    else if max_years ≥ 8 then "senior"
    else if max_years ≥ 3 then "mid"
    else if max_years > 0 then "junior"
    else "unknown"
  let recommended_job_types :=
    (if ["remote", "work from home", "wfh"].any (fun k => strContains text k)
      then ["remote"] else [])
    ++ (if ["part-time", "part time"].any (fun k => strContains text k)
      then ["part-time"] else [])
    ++ (if ["full-time", "full time"].any (fun k => strContains text k)
      then ["full-time"] else [])
  let stripped := pyStrip cv_text
  let summary := "Rule-based analysis (no API key). "
    ++ (strTake stripped 220 ++ (if stripped.length > 220 then "..." else ""))
  ⟨job_titles, skills, experience_level,
   if recommended_job_types.isEmpty then ["any"] else recommended_job_types,
   some summary⟩

/-- The maximum captured year value, `0` when there is no match
(`max(years) if years else 0`; all captured values are non-negative). -/
def maxYearsOf (text : String) : Nat :=
  (findYears text.toList).foldl Nat.max 0

/-- The experience-level decision exactly as the claim states it, over the
lower-cased text: `student` whenever the text contains `intern` or
`student`; else `senior` / `mid` / `junior` by the year thresholds 8 / 3 /
1; else `unknown`. -/
def experienceLevelClaim (cv_text : String) : String :=
  let text := lowerStr cv_text
  if strContains text "intern" || strContains text "student" then "student"
  else if 8 ≤ maxYearsOf text then "senior"
  else if 3 ≤ maxYearsOf text then "mid"
  else if 0 < maxYearsOf text then "junior"
  else "unknown"

/-- Loop of `build_keywords_from_analysis`: strip each part, skip empties,
dedupe on the lower-cased value first-seen-wins (`seen` holds emitted keys,
`out` the reversed output). -/
def kwDedupGo : List String → List String → List String → List String
  | _, out, [] => out.reverse
  | seen, out, p :: rest =>
    let p := pyStrip p
    if p = "" then kwDedupGo seen out rest
    else
      let k := lowerStr p
      if k ∈ seen then kwDedupGo seen out rest
      else kwDedupGo (k :: seen) (p :: out) rest

/-- `build_keywords_from_analysis` of the source. -/
def build_keywords_from_analysis (analysis : AnalysisResult) : String :=
  let parts :=
    (if analysis.job_titles.isEmpty then [] else analysis.job_titles.take 3)
    ++ (if analysis.skills.isEmpty then [] else analysis.skills.take 5)
    ++ (if analysis.recommended_job_types.isEmpty then []
        else analysis.recommended_job_types.take 2)
  let out := kwDedupGo [] [] parts
  let joined := strTake (String.intercalate " " out) 120
  if joined = "" then "software developer" else joined

/-- First-seen-wins case-insensitive deduplication, written as in the claim:
keep an element and drop every later element with the same lower-cased
value. -/
def dedupCaseInsensitive : List String → List String
  | [] => []
  | x :: rest =>
    x :: dedupCaseInsensitive (rest.filter (fun y => !decide (lowerStr y = lowerStr x)))
termination_by l => l.length
decreasing_by
  simp only [List.length_cons]
  exact Nat.lt_succ_of_le (List.length_filter_le _ _)

/-- First-seen-wins case-insensitive dedup that skips keys already in
`seen`; intermediate form connecting the source loop to the claim's
formulation. -/
def kwAux (seen : List String) : List String → List String
  | [] => []
  | x :: rest =>
    if lowerStr x ∈ seen then kwAux seen rest
    else x :: kwAux (lowerStr x :: seen) rest

/-- The keyword builder exactly as the claim describes it: concatenate the
first 3 job titles, first 5 skills and first 2 recommended job types;
normalize each part (trim; a part that is empty after trimming is dropped —
this is what lets the result be "joined with single spaces" and lets an
all-blank profile fall back to the default); dedupe case-insensitively
first-seen-wins; join with single spaces; truncate to 120 characters;
default to `"software developer"` when empty. -/
def buildKeywordsClaim (analysis : AnalysisResult) : String :=
  let combined := analysis.job_titles.take 3 ++ analysis.skills.take 5
    ++ analysis.recommended_job_types.take 2
  let cleaned := (combined.map pyStrip).filter (fun p => !decide (p = ""))
  let deduped := dedupCaseInsensitive cleaned
  let joined := strTake (String.intercalate " " deduped) 120
  if joined = "" then "software developer" else joined

/-- JSON values as returned by `response.json()` / `json.loads`.  Numbers
are modelled as integers; no claim involves fractional payload values. -/
inductive JVal where
  | null : JVal
  | bool : Bool → JVal
  | num : Int → JVal
  | str : String → JVal
  | arr : List JVal → JVal
  | obj : List (String × JVal) → JVal

/-- Python exceptions the embedded code can raise.  `validationError`
stands for pydantic rejecting a field value of the wrong type at model
construction. -/
inductive PyErr where
  | attributeError
  | typeError
  | keyError
  | indexError
  | validationError
deriving DecidableEq, Repr

/-- Python truthiness of a JSON value. -/
def pyTruthy : JVal → Bool
  | .null => false
  | .bool b => b
  | .num n => n != 0
  | .str s => s != ""
  | .arr l => !l.isEmpty
  | .obj f => !f.isEmpty

/-- Python `x or d`. -/
def pyOr (v d : JVal) : JVal := if pyTruthy v then v else d

/-- Dictionary lookup (JSON objects have unique keys; first match wins). -/
def lookupField : List (String × JVal) → String → Option JVal
  | [], _ => none
  | (k, v) :: rest, key => if k = key then some v else lookupField rest key

/-- `d.get(key)` on a known dict, default `None`. -/
def objGet (fields : List (String × JVal)) (key : String) : JVal :=
  (lookupField fields key).getD .null

/-- Python `v.get(key)` (default `None`): raises AttributeError when `v` is
not a dict. -/
def pyGet : JVal → String → Except PyErr JVal
  | .obj f, key => .ok (objGet f key)
  | _, _ => .error .attributeError

/-- Python `v.get(key, default)`: raises AttributeError when `v` is not a
dict. -/
def pyGetD : JVal → String → JVal → Except PyErr JVal
  | .obj f, key, d => .ok ((lookupField f key).getD d)
  | _, _, _ => .error .attributeError

/-- Python `for x in v`: lists yield their elements, strings their
one-character substrings, dicts their keys; other values raise TypeError. -/
def pyIter : JVal → Except PyErr (List JVal)
  | .arr l => .ok l
  | .str s => .ok (s.toList.map fun c => .str (String.mk [c]))
  | .obj f => .ok (f.map fun p => .str p.1)
  | _ => .error .typeError

mutual

/-- Python `repr` (shape-faithful approximation: string escaping is
simplified; no claim depends on the container representation). -/
def pyRepr : JVal → String
  | .null => "None"
  | .bool b => if b then "True" else "False"
  | .num n => toString n
  | .str s => "\"" ++ s ++ "\""
  | .arr l => "[" ++ String.intercalate ", " (pyReprList l) ++ "]"
  | .obj f => "\x7b" ++ String.intercalate ", " (pyReprFields f) ++ "\x7d"

def pyReprList : List JVal → List String
  | [] => []
  | v :: rest => pyRepr v :: pyReprList rest

def pyReprFields : List (String × JVal) → List String
  | [] => []
  | (k, v) :: rest => ("\"" ++ k ++ "\": " ++ pyRepr v) :: pyReprFields rest

end

/-- Python `str(v)` (f-string conversion). -/
def pyStr : JVal → String
  | .str s => s
  | v => pyRepr v

/-- Pydantic validation of a `str` field: only `str` values are accepted. -/
def asStr : JVal → Except PyErr String
  | .str s => .ok s
  | _ => .error .validationError

/-- Pydantic validation of an `Optional[str]` field. -/
def asOptStr : JVal → Except PyErr (Option String)
  | .null => .ok none
  | .str s => .ok (some s)
  | _ => .error .validationError

/-- Pydantic validation of a `List[str]` field. -/
def asStrList : JVal → Except PyErr (List String)
  | .arr l => l.mapM asStr
  | _ => .error .validationError

/-- One element of `" ".join(tags)`: a non-string element raises TypeError. -/
def joinElem : JVal → Except PyErr String
  | .str s => .ok s
  | _ => .error .typeError

/-- Python `" ".join(l)`. -/
def joinStrsSpace (l : List JVal) : Except PyErr String :=
  (l.mapM joinElem).map (String.intercalate " ")

/-- Python slicing `x[:400]` on an arbitrary value: strings and lists are
sliced, other types raise TypeError. -/
def pySlice400 : JVal → Except PyErr JVal
  | .str s => .ok (.str (strTake s 400))
  | .arr l => .ok (.arr (l.take 400))
  | _ => .error .typeError

/-- One left-to-right non-overlapping `re.sub` pass: at each position the
matcher either fires, yielding the replacement and the input remaining
after the match (every match consumes at least one character), or the
character is copied unchanged.  Fuel starts at the input length, which
always suffices. -/
def subScanGo (m : List Char → Option (List Char × List Char)) :
    Nat → List Char → List Char
  | 0, l => l
  | _ + 1, [] => []
  | fuel + 1, c :: rest =>
    match m (c :: rest) with
    | some (rep, after) => rep ++ subScanGo m fuel after
    | none => c :: subScanGo m fuel rest

/-- A full `re.sub` pass over a character list. -/
def subScan (m : List Char → Option (List Char × List Char)) (l : List Char) : List Char :=
  subScanGo m l.length l

/-- Matcher for `re.sub(r"<\s*br\s*/?>", "\n", s, flags=re.I)`. -/
def brMatch : List Char → Option (List Char × List Char)
  | '<' :: rest =>
    match rest.dropWhile pySpace with
    | b :: r :: cs2 =>
      if b.toLower = 'b' && r.toLower = 'r' then
        let cs3 := cs2.dropWhile pySpace
        let cs4 := match cs3 with
          | '/' :: t => t
          | _ => cs3
        match cs4 with
        | '>' :: after => some (['\n'], after)
        | _ => none
      else none
    | _ => none
  | _ => none

/-- The characters before the first `>` and the remainder after it. -/
def splitAtGt : List Char → Option (List Char × List Char)
  | [] => none
  | '>' :: rest => some ([], rest)
  | c :: rest => (splitAtGt rest).map fun p => (c :: p.1, p.2)

/-- Matcher for `re.sub(r"<[^>]+>", "", s)`: `<`, at least one non-`>`
character, then `>`. -/
def tagMatch : List Char → Option (List Char × List Char)
  | '<' :: rest =>
    match splitAtGt rest with
    | some (inner, after) => if inner.isEmpty then none else some ([], after)
    | none => none
  | _ => none

/-- Matcher for `re.sub(r"\n{3,}", "\n\n", s)`: a maximal run of three or
more newlines collapses to two. -/
def nlMatch : List Char → Option (List Char × List Char)
  | '\n' :: rest =>
    let run := rest.takeWhile (fun c => c = '\n')
    if run.length + 1 ≥ 3 then some (['\n', '\n'], rest.dropWhile (fun c => c = '\n'))
    else none
  | _ => none

/-- `_strip_html` of the source (on a string input that passed the
truthiness guard): collapse `<br>` variants to newlines, strip remaining
tags, collapse 3+ newlines to 2, then trim. -/
def strip_html (s : String) : String :=
  pyStrip (String.mk (subScan nlMatch (subScan tagMatch (subScan brMatch s.toList))))

/-- `_strip_html(x)` on an arbitrary value: a falsy argument returns `""`
(the `if not s` guard); a truthy non-string raises TypeError inside
`re.sub`. -/
def stripHtmlJ (a : JVal) : Except PyErr String :=
  if !pyTruthy a then .ok ""
  else match a with
    | .str s => .ok (strip_html s)
    | _ => .error .typeError

/-- Tokens of `re.split(r"\s+", s)` with empty strings dropped. -/
def splitWsGo : List Char → List Char → List String
  | [], cur => if cur.isEmpty then [] else [String.mk cur.reverse]
  | c :: rest, cur =>
    if pySpace c then
      if cur.isEmpty then splitWsGo rest []
      else String.mk cur.reverse :: splitWsGo rest []
    else splitWsGo rest (c :: cur)

/-- Whitespace tokenization used by the relevance filter. -/
def splitWs (s : String) : List String := splitWsGo s.toList []

/-- `_keyword_match` of the source: an empty keyword string accepts
everything; otherwise any token of the lower-cased keyword string occurring
in the lower-cased haystack accepts. -/
def keyword_match (keywords hay : String) : Bool :=
  if keywords = "" then true
  else
    let hay_l := lowerStr hay
    let tokens := splitWs (lowerStr keywords)
    tokens.any (fun t => strContains hay_l t)

/-- Result-collection loop shared by the free adapters: map each raw item
(`none` models a `continue`), appending until `len(results) >= limit`
(checked after the append, as in the source). -/
def adapterLoop (f : JVal → Except PyErr (Option JobItem)) (limit : Int) :
    List JVal → List JobItem → Except PyErr (List JobItem)
  | [], acc => .ok acc.reverse
  | item :: rest, acc =>
    match f item with
    | .error e => .error e
    | .ok none => adapterLoop f limit rest acc
    | .ok (some job) =>
      if ((job :: acc).length : Int) ≥ limit then .ok (job :: acc).reverse
      else adapterLoop f limit rest (job :: acc)

/-- Per-item mapping of `search_jobs_remotive`: field extraction with
defaults, HTML stripping, the relevance filter, then `JobItem`
construction. -/
def remotiveMapItem (keywords : String) (item : JVal) : Except PyErr (Option JobItem) :=
  match pyGet item "title" with
  | .error e => .error e
  | .ok t0 =>
    let titleV := pyOr t0 (.str "Unknown Role")
    match pyGet item "company_name" with
    | .error e => .error e
    | .ok c0 =>
      let companyV := pyOr c0 (.str "Unknown Company")
      match pyGet item "candidate_required_location" with
      | .error e => .error e
      | .ok l0 =>
        let locV := pyOr l0 (.str "Remote")
        match pyGet item "description" with
        | .error e => .error e
        | .ok d0 =>
          match stripHtmlJ (pyOr d0 (.str "")) with
          | .error e => .error e
          | .ok desc =>
            match pyGet item "url" with
            | .error e => .error e
            | .ok u0 =>
              let linkV := pyOr u0 (.str "")
              if !keyword_match keywords
                  (pyStr titleV ++ " " ++ pyStr companyV ++ " " ++ desc ++ " "
                    ++ pyStr locV) then
                .ok none
              else
                match asStr titleV, asStr companyV, asStr locV, asStr linkV with
                | .ok title, .ok company, .ok loc, .ok link =>
                  .ok (some ⟨title, company, loc, strTake desc 400, link, some "Remotive"⟩)
                | .error e, _, _, _ => .error e
                | _, .error e, _, _ => .error e
                | _, _, .error e, _ => .error e
                | _, _, _, .error e => .error e

/-- `search_jobs_remotive` of the source.  `response` is the network
outcome: `none` models any exception inside the `try` block (transport
error, timeout, non-2xx via `raise_for_status`, unparsable JSON body). -/
def search_jobs_remotive (keywords : String) (limit : Int) (response : Option JVal) :
    Except PyErr (List JobItem) :=
  match response with
  | none => .ok []
  | some payload =>
    match pyGetD payload "jobs" (.arr []) with
    | .error e => .error e
    | .ok jobsV =>
      match pyIter (pyOr jobsV (.arr [])) with
      | .error e => .error e
      | .ok items => adapterLoop (remotiveMapItem keywords) limit items []

/-- Per-item mapping of `search_jobs_remoteok`; a non-dict item is skipped
by the `isinstance` guard. -/
def remoteokMapItem (keywords : String) (item : JVal) : Except PyErr (Option JobItem) :=
  match item with
  | .obj fields =>
    let titleV := pyOr (pyOr (objGet fields "position") (objGet fields "title"))
      (.str "Unknown Role")
    let companyV := pyOr (objGet fields "company") (.str "Unknown Company")
    let locV := pyOr (objGet fields "location") (.str "Remote")
    match stripHtmlJ (pyOr (objGet fields "description") (.str "")) with
    | .error e => .error e
    | .ok desc =>
      let linkV := pyOr (objGet fields "url") (.str "")
      let tagsV := pyOr (objGet fields "tags") (.arr [])
      match (match tagsV with
             | .arr l => joinStrsSpace l
             | v => .ok (pyStr v)) with
      | .error e => .error e
      | .ok tag_str =>
        if !keyword_match keywords
            (pyStr titleV ++ " " ++ pyStr companyV ++ " " ++ pyStr locV ++ " "
              ++ tag_str ++ " " ++ desc) then
          .ok none
        else
          match asStr titleV, asStr companyV, asStr locV, asStr linkV with
          | .ok title, .ok company, .ok loc, .ok link =>
            .ok (some ⟨title, company, loc, strTake desc 400, link, some "Remote OK"⟩)
          | .error e, _, _, _ => .error e
          | _, .error e, _, _ => .error e
          | _, _, .error e, _ => .error e
          | _, _, _, .error e => .error e
  | _ => .ok none

/-- `search_jobs_remoteok` of the source.  The two mirror URLs are tried in
turn; `response` is the first successfully parsed payload (`none` when all
attempts fail).  A payload that is not a list yields `[]`; the first list
element (feed metadata) is skipped. -/
def search_jobs_remoteok (keywords : String) (limit : Int) (response : Option JVal) :
    Except PyErr (List JobItem) :=
  match response with
  | none => .ok []
  | some (.arr items) => adapterLoop (remoteokMapItem keywords) limit (items.drop 1) []
  | some _ => .ok []

/-- Per-item mapping of `search_jobs_arbeitnow`; a non-dict item is skipped
by the `isinstance` guard. -/
def arbeitnowMapItem (keywords : String) (item : JVal) : Except PyErr (Option JobItem) :=
  match item with
  | .obj fields =>
    let titleV := pyOr (objGet fields "title") (.str "Unknown Role")
    let companyV := pyOr (objGet fields "company_name") (.str "Unknown Company")
    let locV := pyOr (objGet fields "location") (.str "")
    match stripHtmlJ (pyOr (objGet fields "description") (.str "")) with
    | .error e => .error e
    | .ok desc =>
      let linkV := pyOr (objGet fields "url") (.str "")
      let tagsV := pyOr (objGet fields "tags") (.arr [])
      match (match tagsV with
             | .arr l => joinStrsSpace l
             | v => .ok (pyStr v)) with
      | .error e => .error e
      | .ok tag_str =>
        if !keyword_match keywords
            (pyStr titleV ++ " " ++ pyStr companyV ++ " " ++ pyStr locV ++ " "
              ++ tag_str ++ " " ++ desc) then
          .ok none
        else
          match asStr titleV, asStr companyV, asStr (pyOr locV (.str DEFAULT_JOB_LOCATION)),
              asStr linkV with
          | .ok title, .ok company, .ok loc, .ok link =>
            .ok (some ⟨title, company, loc, strTake desc 400, link, some "Arbeitnow"⟩)
          | .error e, _, _, _ => .error e
          | _, .error e, _, _ => .error e
          | _, _, .error e, _ => .error e
          | _, _, _, .error e => .error e
  | _ => .ok none

/-- `data = payload.get("data") if isinstance(payload, dict) else None`. -/
def arbeitnowData : JVal → JVal
  | .obj fields => objGet fields "data"
  | _ => JVal.null

/-- `if not isinstance(data, list): return []`, else the collection loop. -/
def arbeitnowFromData (keywords : String) (limit : Int) : JVal → Except PyErr (List JobItem)
  | .arr items => adapterLoop (arbeitnowMapItem keywords) limit items []
  | _ => .ok []

/-- `search_jobs_arbeitnow` of the source: `payload.get("data")` only when
the payload is a dict, `[]` unless that is a list. -/
def search_jobs_arbeitnow (keywords : String) (limit : Int) (response : Option JVal) :
    Except PyErr (List JobItem) :=
  match response with
  | none => .ok []
  | some payload => arbeitnowFromData keywords limit (arbeitnowData payload)

/-- The description value Adzuna passes to `JobItem`:
`item.get("description")[:400] if item.get("description") else ""` (no HTML
stripping), followed by pydantic's `str` validation at construction. -/
def adzunaDescription (desc0 : JVal) : Except PyErr String :=
  match (if pyTruthy desc0 then pySlice400 desc0 else .ok (.str "")) with
  | .error e => .error e
  | .ok descF => asStr descF

/-- Per-item mapping of `search_jobs_adzuna`: note there is no relevance
filter, no HTML stripping (`item.get("description")[:400]` on the raw
value), and no limit break in the source loop. -/
def adzunaMapItem (location : Option String) (item : JVal) : Except PyErr JobItem :=
  match pyGet item "title" with
  | .error e => .error e
  | .ok t0 =>
    let titleV := pyOr t0 (.str "Unknown Role")
    match pyGet item "company" with
    | .error e => .error e
    | .ok comp0 =>
      match pyGet (pyOr comp0 (.obj [])) "display_name" with
      | .error e => .error e
      | .ok cd0 =>
        let companyV := pyOr cd0 (.str "Unknown Company")
        match pyGet item "location" with
        | .error e => .error e
        | .ok loc0 =>
          match pyGet (pyOr loc0 (.obj [])) "display_name" with
          | .error e => .error e
          | .ok ld0 =>
            let locArg : JVal := match location with
              | some l => .str l
              | none => .null
            let locV := pyOr (pyOr ld0 locArg) (.str DEFAULT_JOB_LOCATION)
            match pyGet item "description" with
            | .error e => .error e
            | .ok desc0 =>
              match adzunaDescription desc0 with
              | .error e => .error e
              | .ok desc =>
                match pyGet item "redirect_url" with
                | .error e => .error e
                | .ok r0 =>
                  let linkV := pyOr r0 (.str "")
                  match asStr titleV, asStr companyV, asStr locV, asStr linkV with
                  | .ok title, .ok company, .ok loc, .ok link =>
                    .ok ⟨title, company, loc, desc, link, some "Adzuna"⟩
                  | .error e, _, _, _ => .error e
                  | _, .error e, _, _ => .error e
                  | _, _, .error e, _ => .error e
                  | _, _, _, .error e => .error e

/-- Result-collection loop of `search_jobs_adzuna`: every mapped item is
appended; the source has no limit break here. -/
def adzunaLoop (location : Option String) : List JVal → List JobItem → Except PyErr (List JobItem)
  | [], acc => .ok acc.reverse
  | item :: rest, acc =>
    match adzunaMapItem location item with
    | .error e => .error e
    | .ok job => adzunaLoop location rest (job :: acc)

/-- `search_jobs_adzuna` of the source.  `creds` models whether both
`ADZUNA_APP_ID` and `ADZUNA_APP_KEY` are configured; without them the
adapter returns `[]` without attempting a call.  `response` is the network
outcome as for the other adapters. -/
def search_jobs_adzuna (creds : Bool) (keywords : String) (location : Option String)
    (limit : Int) (response : Option JVal) : Except PyErr (List JobItem) :=
  if !creds then .ok []
  else
    match response with
    | none => .ok []
    | some payload =>
      match pyGetD payload "results" (.arr []) with
      | .error e => .error e
      | .ok resultsV =>
        match pyIter resultsV with
        | .error e => .error e
        | .ok items => adzunaLoop location items []

/-- Truthiness of the optional `HF_TOKEN` environment value (`if not
HF_TOKEN`): absent or empty means the external path is not used. -/
def tokenTruthy : Option String → Bool
  | none => false
  | some s => s != ""

/-- `text_out.strip()`: raises AttributeError when `text_out` is not a
string. -/
def pyStripJ : JVal → Except PyErr String
  | .str s => .ok (pyStrip s)
  | _ => .error .attributeError

/-- `call_hf_for_analysis` of the source.  `hfToken` is the `HF_TOKEN`
environment value.  `httpOutcome` is the Hugging Face call outcome: `none`
models any exception inside the `try` block (the whole of request,
`raise_for_status`, `.json()` and the `output[0]["generated_text"]`
extraction — an IndexError/KeyError/TypeError there is caught and collapses
to `text_out = ""`).  `parsedOutcome` models the result of
`json.loads(text_out)`: `none` when it raises (in particular
`json.loads("")` always raises, and a non-string `text_out` raises
TypeError), in which case `data = {}`. -/
def call_hf_for_analysis (hfToken : Option String) (httpOutcome : Option JVal)
    (parsedOutcome : Option JVal) (cv_text : String) : Except PyErr AnalysisResult :=
  if !tokenTruthy hfToken then .ok (analyze_cv_rule_based cv_text)
  else
    let text_out : JVal := match httpOutcome with
      | none => .str ""
      | some output =>
        match output with
        | .arr l =>
          match l with
          | [] => .str ""
          | v :: _ =>
            match v with
            | .obj f =>
              match lookupField f "generated_text" with
              | some g => g
              | none => .str ""
            | _ => .str ""
        | _ => .str (pyStr output)
    let data : JVal := match parsedOutcome with
      | none => .obj []
      | some v => v
    match pyGet data "job_titles" with
    | .error e => .error e
    | .ok jt0 =>
      let jtV := pyOr jt0 (.arr [])
      match pyGet data "skills" with
      | .error e => .error e
      | .ok sk0 =>
        let skV := pyOr sk0 (.arr [])
        match pyGet data "experience_level" with
        | .error e => .error e
        | .ok el0 =>
          let elV := pyOr el0 (.str "unknown")
          match pyGet data "recommended_job_types" with
          | .error e => .error e
          | .ok rj0 =>
            let rjV := pyOr rj0 (.arr [])
            match pyGet data "summary" with
            | .error e => .error e
            | .ok sm0 =>
              match (if pyTruthy sm0 then .ok sm0
                     else (pyStripJ text_out).map .str) with
              | .error e => .error e
              | .ok smV =>
                let jtV := match jtV with
                  | .str s => .arr [.str s]
                  | v => v
                let skV := match skV with
                  | .str s => .arr [.str s]
                  | v => v
                let rjV := match rjV with
                  | .str s => .arr [.str s]
                  | v => v
                match asStrList jtV, asStrList skV, asStrList rjV, asOptStr smV with
                | .ok job_titles, .ok skills, .ok recommended_job_types, .ok summary =>
                  .ok ⟨job_titles, skills, lowerStr (pyStr elV),
                       recommended_job_types, summary⟩
                | .error e, _, _, _ => .error e
                | _, .error e, _, _ => .error e
                | _, _, .error e, _ => .error e
                | _, _, _, .error e => .error e

/-- Request-level errors of the HTTP boundary: `httpException` is the
explicit 400 rejection raised by the endpoint, `pyError` an uncaught Python
exception. -/
inductive ApiError where
  | httpException (status : Nat) (detail : String)
  | pyError (e : PyErr)
deriving DecidableEq, Repr

/-- The `/analyze` endpoint of the source: rejects with HTTP 400 when
`cv_text` is empty or its trimmed length is below 50, otherwise delegates
to `call_hf_for_analysis`. -/
def analyze (hfToken : Option String) (httpOutcome : Option JVal)
    (parsedOutcome : Option JVal) (cv_text : String) : Except ApiError AnalysisResult :=
  if cv_text = "" || decide ((pyStrip cv_text).length < 50) then
    .error (.httpException 400 "CV text is too short. Please upload a more detailed CV.")
  else
    match call_hf_for_analysis hfToken httpOutcome parsedOutcome cv_text with
    | .ok r => .ok r
    | .error e => .error (.pyError e)

/-! ### Helper lemmas -/

theorem strTake_length_le (s : String) (n : Nat) : (strTake s n).length ≤ n := by
  show (s.toList.take n).length ≤ n
  rw [List.length_take]
  exact min_le_left _ _

theorem pyMaxNat_eq_foldl (l : List Nat) : pyMaxNat l = l.foldl Nat.max 0 := by
  cases l with
  | nil => rfl
  | cons y ys => simp [pyMaxNat, List.foldl_cons, Nat.zero_max]

theorem dedupeGo_eq_byKey (limit : Int) (jobs : List JobItem) :
    ∀ (seen : List String) (acc : List JobItem),
      dedupeJobsGo limit seen acc jobs = dedupeByKeyGo amendedKey limit seen acc jobs := by
  induction jobs with
  | nil => intro seen acc; rfl
  | cons j rest ih =>
    intro seen acc
    have hk : dedupeKey = amendedKey := rfl
    simp only [dedupeJobsGo, dedupeByKeyGo, hk]
    split_ifs <;> first | rfl | exact ih _ _

theorem dedupeJobsGo_length_le (limit : Int) (jobs : List JobItem) :
    ∀ (seen : List String) (acc : List JobItem),
      (acc.length : Int) < limit →
      ((dedupeJobsGo limit seen acc jobs).length : Int) ≤ limit := by
  induction jobs with
  | nil =>
    intro seen acc h
    simp only [dedupeJobsGo, List.length_reverse]
    exact le_of_lt h
  | cons j rest ih =>
    intro seen acc h
    simp only [dedupeJobsGo]
    split_ifs with h1 h2
    · exact ih _ _ h
    · simp only [List.length_reverse, List.length_cons]
      push_cast
      omega
    · refine ih _ _ ?_
      simp only [List.length_cons] at h2 ⊢
      push_cast at h2 ⊢
      omega

theorem mocked_jobs_length (analysis : AnalysisResult) (location : String) (limit : Int)
    (h : 1 ≤ limit) :
    1 ≤ (mocked_jobs analysis location limit).length ∧
      ((mocked_jobs analysis location limit).length : Int) ≤ limit := by
  have hm : max 1 (min limit 2) = min limit 2 := by
    rcases le_total limit 2 with h2 | h2
    · rw [min_eq_left h2, max_eq_right h]
    · rw [min_eq_right h2, max_eq_right (by norm_num : (1 : Int) ≤ 2)]
  simp only [mocked_jobs, List.length_take, List.length_cons, List.length_nil, hm]
  constructor
  · have h1 : (1 : Int) ≤ min limit 2 := le_min h (by norm_num)
    omega
  · have h1 : (min limit 2) ≤ limit := min_le_left _ _
    have h0 : (0 : Int) ≤ min limit 2 := le_trans (by norm_num) (le_min h (by norm_num))
    omega

/-! ### C1: deduplication identity key -/

/-- C1 counterexample.  The claim says the fallback identity key is the
lower-cased **trimmed** `"{title}|{company}"`.  Take two postings with empty
`apply_link`, titles both `"Dev"` and companies `"Co "` and `"Co"`: under
the claimed (trimmed) key both have key `"dev|co"` and must collapse to the
first; the code's key is not trimmed (`"dev|co "` vs `"dev|co"`), so
`_dedupe_jobs` keeps both. -/
theorem dedupe_trimmed_key_cex :
    dedupeByKey claimedKey
        [⟨"Dev", "Co ", "Loc", "d", "", none⟩, ⟨"Dev", "Co", "Loc", "d", "", none⟩] 10
      ≠ dedupe_jobs
        [⟨"Dev", "Co ", "Loc", "d", "", none⟩, ⟨"Dev", "Co", "Loc", "d", "", none⟩] 10 := by
  decide

/-- C1 (amended): `_dedupe_jobs` iterates the concatenated list once and
keeps only the first posting bearing each identity key, stopping once the
output reaches the limit; the key is the lower-cased trimmed `apply_link`
when that is non-empty, and otherwise the lower-cased — but **not**
trimmed — string `"{title}|{company}"`. -/
theorem dedupe_jobs_amended (jobs : List JobItem) (limit : Int) :
    dedupe_jobs jobs limit = dedupeByKey amendedKey jobs limit :=
  dedupeGo_eq_byKey limit jobs [] []

/-! ### C2: the aggregator always returns a non-empty bounded list -/

/-- C2: for every profile, optional location and integer limit (and any
adapter results), `find_jobs` clamps the limit into `[1, 50]` and returns
between 1 and (clamped limit) postings: a non-empty dedup result is bounded
by the clamped limit, and an empty one is replaced by the placeholder
postings of `mocked_jobs`, truncated to `min(limit, 2)`. -/
theorem find_jobs_nonempty_bounded
    (remotiveJobs remoteokJobs arbeitnowJobs adzunaJobs : List JobItem)
    (analysis : AnalysisResult) (location : Option String) (reqLimit : Int) :
    1 ≤ (find_jobs remotiveJobs remoteokJobs arbeitnowJobs adzunaJobs
          analysis location reqLimit).length ∧
    ((find_jobs remotiveJobs remoteokJobs arbeitnowJobs adzunaJobs
          analysis location reqLimit).length : Int) ≤ max 1 (min reqLimit 50) ∧
    (1 : Int) ≤ max 1 (min reqLimit 50) ∧ max 1 (min reqLimit 50) ≤ 50 := by
  have h1 : (1 : Int) ≤ max 1 (min reqLimit 50) := le_max_left 1 _
  have h50 : max 1 (min reqLimit 50) ≤ 50 :=
    max_le (by norm_num) (min_le_right _ _)
  have hmain : 1 ≤ (find_jobs remotiveJobs remoteokJobs arbeitnowJobs adzunaJobs
        analysis location reqLimit).length ∧
      ((find_jobs remotiveJobs remoteokJobs arbeitnowJobs adzunaJobs
        analysis location reqLimit).length : Int) ≤ max 1 (min reqLimit 50) := by
    simp only [find_jobs]
    split_ifs with hempty
    · exact mocked_jobs_length analysis _ _ h1
    · constructor
      · have hne : dedupe_jobs
            (remotiveJobs ++ remoteokJobs ++ arbeitnowJobs ++ adzunaJobs)
            (max 1 (min reqLimit 50)) ≠ [] := by
          intro hnil
          rw [hnil] at hempty
          exact hempty rfl
        exact List.length_pos.mpr hne
      · exact dedupeJobsGo_length_le _ _ _ _ (by simp)
  exact ⟨hmain.1, hmain.2, h1, h50⟩

/-! ### C3: experience-year extraction and level decision -/

/-- C3: for every CV text, the experience level computed by the offline
extractor is: `student` whenever the lower-cased text contains `intern` or
`student` (overriding any year count); otherwise `senior` / `mid` /
`junior` when the maximum value captured by
`(\d{1,2})\s*\+?\s*(?:years|yrs)\b` (0 when there is no match) is ≥ 8 /
≥ 3 / > 0; otherwise `unknown`.  The number may be separated from the
optional `+` and the unit by whitespace, per the `\s*` gaps of the source
regex (spec §8 relies on `"5 years"` matching). -/
theorem experience_level_correct (cv_text : String) :
    (analyze_cv_rule_based cv_text).experience_level = experienceLevelClaim cv_text := by
  simp only [analyze_cv_rule_based, experienceLevelClaim, maxYearsOf, pyMaxNat_eq_foldl]

/-! ### C9: the offline extractor is deterministic -/

/-- C9: the rule-based analyzer is a pure function of its input text: two
calls on identical inputs yield identical profiles (all five fields). -/
theorem analyzer_deterministic (t1 t2 : String) (h : t1 = t2) :
    analyze_cv_rule_based t1 = analyze_cv_rule_based t2 := by rw [h]

theorem analyzer_deterministic_witness :
    ("I am a python intern" : String) = "I am a python intern" ∧
      analyze_cv_rule_based "I am a python intern"
        = analyze_cv_rule_based "I am a python intern" :=
  ⟨rfl, analyzer_deterministic "I am a python intern" "I am a python intern" rfl⟩

/-! ### C10: extractor lists are sorted and duplicate-free -/

theorem sortedDedup (l : List String) :
    (List.insertionSort (· ≤ ·) l.dedup).Sorted (· < ·) ∧
      (List.insertionSort (· ≤ ·) l.dedup).Nodup := by
  have hnodup : (List.insertionSort (· ≤ ·) l.dedup).Nodup :=
    (List.perm_insertionSort (· ≤ ·) l.dedup).symm.nodup (List.nodup_dedup l)
  exact ⟨(List.sorted_insertionSort (· ≤ ·) l.dedup).lt_of_le hnodup, hnodup⟩

/-- C10: for every input text, `skills` and `job_titles` of the offline
extractor are strictly sorted in ascending lexicographic order (hence
duplicate-free): the Python `sorted({...})` set comprehension sorts the
distinct lexicon matches, so the "first 3 titles" / "first 5 skills" later
selected by the keyword builder are the alphabetically first lexicon
matches, not the earliest occurrences in the CV text. -/
theorem analyzer_lists_sorted_nodup (cv_text : String) :
    (analyze_cv_rule_based cv_text).skills.Sorted (· < ·) ∧
    (analyze_cv_rule_based cv_text).skills.Nodup ∧
    (analyze_cv_rule_based cv_text).job_titles.Sorted (· < ·) ∧
    (analyze_cv_rule_based cv_text).job_titles.Nodup := by
  have hsk : (analyze_cv_rule_based cv_text).skills
      = List.insertionSort (· ≤ ·)
        ((COMMON_SKILLS.filter
          (fun s => strContains (lowerStr cv_text) (lowerStr s))).dedup) := rfl
  have hjt : (analyze_cv_rule_based cv_text).job_titles
      = List.insertionSort (· ≤ ·)
        ((COMMON_JOB_TITLES.filter
          (fun t => strContains (lowerStr cv_text) (lowerStr t))).dedup) := rfl
  rw [hsk, hjt]
  exact ⟨(sortedDedup _).1, (sortedDedup _).2, (sortedDedup _).1, (sortedDedup _).2⟩

/-! ### C7: recommended_job_types never empty -/

theorem ifEmptyAny_ne_nil (l : List String) : (if l.isEmpty then ["any"] else l) ≠ [] := by
  split_ifs with h
  · simp
  · intro hnil
    subst hnil
    exact h rfl

/-- C7 counterexample: with `HF_TOKEN` configured and a failed external
call (any exception makes `text_out = ""`, then `json.loads("")` raises and
`data = {}`), `call_hf_for_analysis` normalizes `recommended_job_types` to
`data.get("recommended_job_types") or []` = `[]` and passes it through —
there is no `or ["any"]` on this path, so the resulting profile has an
empty `recommended_job_types`, contradicting the claimed invariant. -/
theorem hf_empty_job_types_cex :
    Except.map AnalysisResult.recommended_job_types
      (call_hf_for_analysis (some "token") none none "sample cv text") = .ok [] := rfl

/-- C7 (amended): the offline heuristic mode does enforce the invariant:
`analyze_cv_rule_based` resolves an empty recommendation list to `["any"]`
(`recommended_job_types or ["any"]`), so its `recommended_job_types` is
never empty.  The external-service normalization path does not enforce it. -/
theorem rule_based_job_types_nonempty (cv_text : String) :
    (analyze_cv_rule_based cv_text).recommended_job_types ≠ [] :=
  ifEmptyAny_ne_nil _

/-! ### C8: the analyze endpoint's validation guard -/

/-- C8: the `/analyze` entry point rejects with the HTTP 400
`ValidationError` exactly those requests whose `cv_text` has trimmed length
below 50 characters; every input of trimmed length at least 50 proceeds to
analysis without a validation rejection (the `not request.cv_text` guard is
subsumed: the empty string has trimmed length 0). -/
theorem analyze_rejects_iff_short (hfToken : Option String)
    (httpOutcome parsedOutcome : Option JVal) (cv_text : String) :
    (∃ detail, analyze hfToken httpOutcome parsedOutcome cv_text
        = .error (.httpException 400 detail)) ↔ (pyStrip cv_text).length < 50 := by
  by_cases hlen : (pyStrip cv_text).length < 50
  · constructor
    · intro _
      exact hlen
    · intro _
      refine ⟨"CV text is too short. Please upload a more detailed CV.", ?_⟩
      simp only [analyze]
      rw [if_pos]
      simp [hlen]
  · constructor
    · rintro ⟨d, hd⟩
      exfalso
      have hne : cv_text ≠ "" := by
        intro h
        subst h
        exact hlen (by decide)
      simp only [analyze] at hd
      rw [if_neg] at hd
      · cases h2 : call_hf_for_analysis hfToken httpOutcome parsedOutcome cv_text with
        | ok r =>
          rw [h2] at hd
          exact absurd hd (by simp)
        | error e =>
          rw [h2] at hd
          simp at hd
      · simp [hne, hlen]
    · intro h
      exact absurd h hlen

/-! ### C4: the keyword builder -/

theorem takeIfEmpty (l : List String) (k : Nat) :
    (if l.isEmpty then [] else l.take k) = l.take k := by
  cases l <;> simp

theorem kwDedupGo_eq_kwAux (l : List String) :
    ∀ (seen out : List String),
      kwDedupGo seen out l
        = out.reverse ++ kwAux seen ((l.map pyStrip).filter (fun q => !decide (q = ""))) := by
  induction l with
  | nil =>
    intro seen out
    simp [kwDedupGo, kwAux]
  | cons p rest ih =>
    intro seen out
    by_cases hp : pyStrip p = ""
    · have hL : kwDedupGo seen out (p :: rest) = kwDedupGo seen out rest := by
        simp only [kwDedupGo]
        rw [if_pos hp]
      have hR : ((p :: rest).map pyStrip).filter (fun q => !decide (q = ""))
          = (rest.map pyStrip).filter (fun q => !decide (q = "")) := by
        simp [hp]
      rw [hL, hR]
      exact ih seen out
    · have hR : ((p :: rest).map pyStrip).filter (fun q => !decide (q = ""))
          = pyStrip p :: (rest.map pyStrip).filter (fun q => !decide (q = "")) := by
        simp [hp]
      rw [hR]
      by_cases hk : lowerStr (pyStrip p) ∈ seen
      · have hL : kwDedupGo seen out (p :: rest) = kwDedupGo seen out rest := by
          simp only [kwDedupGo]
          rw [if_neg hp, if_pos hk]
        rw [hL, ih seen out]
        simp only [kwAux]
        rw [if_pos hk]
      · have hL : kwDedupGo seen out (p :: rest)
            = kwDedupGo (lowerStr (pyStrip p) :: seen) (pyStrip p :: out) rest := by
          simp only [kwDedupGo]
          rw [if_neg hp, if_neg hk]
        rw [hL, ih (lowerStr (pyStrip p) :: seen) (pyStrip p :: out)]
        simp only [kwAux]
        rw [if_neg hk]
        simp [List.reverse_cons, List.append_assoc]

theorem kwAux_eq_dedupCI (l : List String) :
    ∀ (seen : List String),
      kwAux seen l
        = dedupCaseInsensitive (l.filter (fun y => !decide (lowerStr y ∈ seen))) := by
  induction l with
  | nil =>
    intro seen
    simp [kwAux, dedupCaseInsensitive]
  | cons x rest ih =>
    intro seen
    by_cases hx : lowerStr x ∈ seen
    · have hR : (x :: rest).filter (fun y => !decide (lowerStr y ∈ seen))
          = rest.filter (fun y => !decide (lowerStr y ∈ seen)) := by simp [hx]
      have hL : kwAux seen (x :: rest) = kwAux seen rest := by
        simp only [kwAux]
        rw [if_pos hx]
      rw [hL, hR]
      exact ih seen
    · have hR : (x :: rest).filter (fun y => !decide (lowerStr y ∈ seen))
          = x :: rest.filter (fun y => !decide (lowerStr y ∈ seen)) := by simp [hx]
      have hL : kwAux seen (x :: rest) = x :: kwAux (lowerStr x :: seen) rest := by
        simp only [kwAux]
        rw [if_neg hx]
      rw [hL, hR, ih (lowerStr x :: seen)]
      have hfil : rest.filter (fun y => !decide (lowerStr y ∈ lowerStr x :: seen))
          = (rest.filter (fun y => !decide (lowerStr y ∈ seen))).filter
              (fun y => !decide (lowerStr y = lowerStr x)) := by
        rw [List.filter_filter]
        apply List.filter_congr
        intro y _
        by_cases h1 : lowerStr y = lowerStr x <;> by_cases h2 : lowerStr y ∈ seen <;>
          simp [List.mem_cons, h1, h2]
      rw [hfil]
      simp only [dedupCaseInsensitive]

/-- C4: for every profile, `build_keywords_from_analysis` equals the
claim's pipeline: concatenate the first 3 job titles, first 5 skills and
first 2 recommended job types; normalize each part (trim, drop empties,
which is what makes the join single-spaced); dedupe case-insensitively
preserving first-seen order; join with single spaces; truncate to 120
characters; return `"software developer"` when empty. -/
theorem build_keywords_correct (analysis : AnalysisResult) :
    build_keywords_from_analysis analysis = buildKeywordsClaim analysis := by
  simp only [build_keywords_from_analysis, buildKeywordsClaim, takeIfEmpty]
  rw [kwDedupGo_eq_kwAux]
  rw [kwAux_eq_dedupCI]
  simp

/-! ### C5/C6 helper lemmas: adapter results -/

theorem adzunaDescription_le (v : JVal) (desc : String)
    (h : adzunaDescription v = .ok desc) : desc.length ≤ 400 := by
  unfold adzunaDescription at h
  by_cases ht : pyTruthy v = true
  · rw [if_pos ht] at h
    cases v with
    | str s =>
      have h2 : asStr (.str (strTake s 400)) = Except.ok desc := h
      injection h2 with h2
      subst h2
      exact strTake_length_le s 400
    | arr l =>
      have h2 : (Except.error .validationError : Except PyErr String) = Except.ok desc := h
      exact Except.noConfusion h2
    | null =>
      have h2 : (Except.error .typeError : Except PyErr String) = Except.ok desc := h
      exact Except.noConfusion h2
    | bool b =>
      have h2 : (Except.error .typeError : Except PyErr String) = Except.ok desc := h
      exact Except.noConfusion h2
    | num n =>
      have h2 : (Except.error .typeError : Except PyErr String) = Except.ok desc := h
      exact Except.noConfusion h2
    | obj f =>
      have h2 : (Except.error .typeError : Except PyErr String) = Except.ok desc := h
      exact Except.noConfusion h2
  · rw [if_neg ht] at h
    have h2 : (Except.ok "" : Except PyErr String) = Except.ok desc := h
    injection h2 with h2
    subst h2
    simp

theorem adapterLoop_ok_mem (f : JVal → Except PyErr (Option JobItem)) (limit : Int)
    (P : JobItem → Prop) (hf : ∀ item j, f item = .ok (some j) → P j) :
    ∀ (items : List JVal) (acc jobs : List JobItem),
      (∀ j ∈ acc, P j) → adapterLoop f limit items acc = .ok jobs → ∀ j ∈ jobs, P j := by
  intro items
  induction items with
  | nil =>
    intro acc jobs hacc heq j hj
    simp only [adapterLoop] at heq
    injection heq with heq
    subst heq
    exact hacc j (by simpa using hj)
  | cons item rest ih =>
    intro acc jobs hacc heq j hj
    cases hi : f item with
    | error e =>
      have heq2 : adapterLoop f limit (item :: rest) acc = Except.error e := by
        rw [adapterLoop, hi]
      rw [heq2] at heq
      exact Except.noConfusion heq
    | ok o =>
      cases o with
      | none =>
        have heq2 : adapterLoop f limit (item :: rest) acc = adapterLoop f limit rest acc := by
          rw [adapterLoop, hi]
        rw [heq2] at heq
        exact ih acc jobs hacc heq j hj
      | some job =>
        have heq2 : adapterLoop f limit (item :: rest) acc
            = if ((job :: acc).length : Int) ≥ limit then Except.ok (job :: acc).reverse
              else adapterLoop f limit rest (job :: acc) := by
          rw [adapterLoop, hi]
        rw [heq2] at heq
        have hjob : P job := hf item job hi
        have hacc2 : ∀ x ∈ job :: acc, P x := by
          intro x hx
          rcases List.mem_cons.mp hx with hx | hx
          · subst hx; exact hjob
          · exact hacc x hx
        by_cases hlim : ((job :: acc).length : Int) ≥ limit
        · rw [if_pos hlim] at heq
          injection heq with heq
          subst heq
          exact hacc2 j (List.mem_reverse.mp hj)
        · rw [if_neg hlim] at heq
          exact ih (job :: acc) jobs hacc2 heq j hj

theorem adzunaLoop_ok_mem (location : Option String) (P : JobItem → Prop)
    (hf : ∀ item j, adzunaMapItem location item = .ok j → P j) :
    ∀ (items : List JVal) (acc jobs : List JobItem),
      (∀ j ∈ acc, P j) → adzunaLoop location items acc = .ok jobs → ∀ j ∈ jobs, P j := by
  intro items
  induction items with
  | nil =>
    intro acc jobs hacc heq j hj
    simp only [adzunaLoop] at heq
    injection heq with heq
    subst heq
    exact hacc j (by simpa using hj)
  | cons item rest ih =>
    intro acc jobs hacc heq j hj
    cases hi : adzunaMapItem location item with
    | error e =>
      have heq2 : adzunaLoop location (item :: rest) acc = Except.error e := by
        rw [adzunaLoop, hi]
      rw [heq2] at heq
      exact Except.noConfusion heq
    | ok job =>
      have heq2 : adzunaLoop location (item :: rest) acc
          = adzunaLoop location rest (job :: acc) := by
        rw [adzunaLoop, hi]
      rw [heq2] at heq
      have hacc2 : ∀ x ∈ job :: acc, P x := by
        intro x hx
        rcases List.mem_cons.mp hx with hx | hx
        · rw [hx]; exact hf item job hi
        · exact hacc x hx
      exact ih (job :: acc) jobs hacc2 heq j hj

theorem remotiveMapItem_desc_le (keywords : String) (item : JVal) (j : JobItem)
    (h : remotiveMapItem keywords item = .ok (some j)) : j.description.length ≤ 400 := by
  unfold remotiveMapItem at h
  repeat' (first | split at h | dsimp only at h)
  all_goals first
    | exact Except.noConfusion h
    | (injection h with h; exact Option.noConfusion h)
    | (injection h with h; injection h with h; subst h; exact strTake_length_le _ _)

theorem remoteokMapItem_desc_le (keywords : String) (item : JVal) (j : JobItem)
    (h : remoteokMapItem keywords item = .ok (some j)) : j.description.length ≤ 400 := by
  unfold remoteokMapItem at h
  repeat' (first | split at h | dsimp only at h)
  all_goals first
    | exact Except.noConfusion h
    | (injection h with h; exact Option.noConfusion h)
    | (injection h with h; injection h with h; subst h; exact strTake_length_le _ _)

theorem arbeitnowMapItem_desc_le (keywords : String) (item : JVal) (j : JobItem)
    (h : arbeitnowMapItem keywords item = .ok (some j)) : j.description.length ≤ 400 := by
  unfold arbeitnowMapItem at h
  repeat' (first | split at h | dsimp only at h)
  all_goals first
    | exact Except.noConfusion h
    | (injection h with h; exact Option.noConfusion h)
    | (injection h with h; injection h with h; subst h; exact strTake_length_le _ _)

theorem adzunaMapItem_desc_le (location : Option String) (item : JVal) (j : JobItem)
    (h : adzunaMapItem location item = .ok j) : j.description.length ≤ 400 := by
  unfold adzunaMapItem at h
  repeat' (first | split at h | dsimp only at h)
  all_goals first
    | exact Except.noConfusion h
    | (injection h with h; subst h; exact adzunaDescription_le _ _ (by assumption))

theorem search_jobs_remotive_desc_le (keywords : String) (limit : Int)
    (response : Option JVal) (jobs : List JobItem)
    (h : search_jobs_remotive keywords limit response = .ok jobs) :
    ∀ j ∈ jobs, j.description.length ≤ 400 := by
  cases response with
  | none =>
    have h2 : (Except.ok [] : Except PyErr (List JobItem)) = Except.ok jobs := h
    injection h2 with h2
    subst h2
    intro j hj
    exact absurd hj (List.not_mem_nil j)
  | some payload =>
    cases h1 : pyGetD payload "jobs" (.arr []) with
    | error e =>
      have s1 : search_jobs_remotive keywords limit (some payload) = Except.error e := by
        rw [search_jobs_remotive, h1]
      rw [s1] at h
      exact Except.noConfusion h
    | ok jobsV =>
      have s1 : search_jobs_remotive keywords limit (some payload)
          = match pyIter (pyOr jobsV (.arr [])) with
            | .error e => .error e
            | .ok items => adapterLoop (remotiveMapItem keywords) limit items [] := by
        rw [search_jobs_remotive, h1]
      cases h2 : pyIter (pyOr jobsV (.arr [])) with
      | error e =>
        rw [h2] at s1
        rw [s1] at h
        exact Except.noConfusion h
      | ok items =>
        rw [h2] at s1
        rw [s1] at h
        exact adapterLoop_ok_mem _ limit _ (remotiveMapItem_desc_le keywords)
          items [] jobs (by intro j hj; exact absurd hj (List.not_mem_nil j)) h

theorem search_jobs_remoteok_desc_le (keywords : String) (limit : Int)
    (response : Option JVal) (jobs : List JobItem)
    (h : search_jobs_remoteok keywords limit response = .ok jobs) :
    ∀ j ∈ jobs, j.description.length ≤ 400 := by
  have hnil : ∀ x ∈ ([] : List JobItem), x.description.length ≤ 400 := by
    intro x hx
    exact absurd hx (List.not_mem_nil x)
  cases response with
  | none =>
    have h2 : (Except.ok [] : Except PyErr (List JobItem)) = Except.ok jobs := h
    injection h2 with h2
    subst h2
    exact hnil
  | some payload =>
    cases payload with
    | arr items =>
      exact adapterLoop_ok_mem _ limit _ (remoteokMapItem_desc_le keywords)
        (items.drop 1) [] jobs hnil h
    | null =>
      have h2 : (Except.ok [] : Except PyErr (List JobItem)) = Except.ok jobs := h
      injection h2 with h2
      subst h2
      exact hnil
    | bool b =>
      have h2 : (Except.ok [] : Except PyErr (List JobItem)) = Except.ok jobs := h
      injection h2 with h2
      subst h2
      exact hnil
    | num n =>
      have h2 : (Except.ok [] : Except PyErr (List JobItem)) = Except.ok jobs := h
      injection h2 with h2
      subst h2
      exact hnil
    | str s =>
      have h2 : (Except.ok [] : Except PyErr (List JobItem)) = Except.ok jobs := h
      injection h2 with h2
      subst h2
      exact hnil
    | obj f =>
      have h2 : (Except.ok [] : Except PyErr (List JobItem)) = Except.ok jobs := h
      injection h2 with h2
      subst h2
      exact hnil

theorem search_jobs_arbeitnow_desc_le (keywords : String) (limit : Int)
    (response : Option JVal) (jobs : List JobItem)
    (h : search_jobs_arbeitnow keywords limit response = .ok jobs) :
    ∀ j ∈ jobs, j.description.length ≤ 400 := by
  have hnil : ∀ x ∈ ([] : List JobItem), x.description.length ≤ 400 := by
    intro x hx
    exact absurd hx (List.not_mem_nil x)
  cases response with
  | none =>
    have h2 : (Except.ok [] : Except PyErr (List JobItem)) = Except.ok jobs := h
    injection h2 with h2
    subst h2
    exact hnil
  | some payload =>
    have s1 : search_jobs_arbeitnow keywords limit (some payload)
        = arbeitnowFromData keywords limit (arbeitnowData payload) := rfl
    cases hdata : arbeitnowData payload with
    | arr items =>
      rw [hdata] at s1
      rw [s1] at h
      exact adapterLoop_ok_mem _ limit _ (arbeitnowMapItem_desc_le keywords)
        items [] jobs hnil h
    | null =>
      rw [hdata] at s1
      rw [s1] at h
      have h2 : (Except.ok [] : Except PyErr (List JobItem)) = Except.ok jobs := h
      injection h2 with h2
      subst h2
      exact hnil
    | bool b =>
      rw [hdata] at s1
      rw [s1] at h
      have h2 : (Except.ok [] : Except PyErr (List JobItem)) = Except.ok jobs := h
      injection h2 with h2
      subst h2
      exact hnil
    | num n =>
      rw [hdata] at s1
      rw [s1] at h
      have h2 : (Except.ok [] : Except PyErr (List JobItem)) = Except.ok jobs := h
      injection h2 with h2
      subst h2
      exact hnil
    | str s =>
      rw [hdata] at s1
      rw [s1] at h
      have h2 : (Except.ok [] : Except PyErr (List JobItem)) = Except.ok jobs := h
      injection h2 with h2
      subst h2
      exact hnil
    | obj f =>
      rw [hdata] at s1
      rw [s1] at h
      have h2 : (Except.ok [] : Except PyErr (List JobItem)) = Except.ok jobs := h
      injection h2 with h2
      subst h2
      exact hnil

theorem search_jobs_adzuna_desc_le (creds : Bool) (keywords : String)
    (location : Option String) (limit : Int) (response : Option JVal) (jobs : List JobItem)
    (h : search_jobs_adzuna creds keywords location limit response = .ok jobs) :
    ∀ j ∈ jobs, j.description.length ≤ 400 := by
  have hnil : ∀ x ∈ ([] : List JobItem), x.description.length ≤ 400 := by
    intro x hx
    exact absurd hx (List.not_mem_nil x)
  cases creds with
  | false =>
    have h2 : (Except.ok [] : Except PyErr (List JobItem)) = Except.ok jobs := h
    injection h2 with h2
    subst h2
    exact hnil
  | true =>
    cases response with
    | none =>
      have h2 : (Except.ok [] : Except PyErr (List JobItem)) = Except.ok jobs := h
      injection h2 with h2
      subst h2
      exact hnil
    | some payload =>
      cases h1 : pyGetD payload "results" (.arr []) with
      | error e =>
        have s1 : search_jobs_adzuna true keywords location limit (some payload)
            = Except.error e := by
          rw [search_jobs_adzuna]
          have hred : (if !true then Except.ok ([] : List JobItem)
              else match pyGetD payload "results" (.arr []) with
                | .error e => .error e
                | .ok resultsV =>
                  match pyIter resultsV with
                  | .error e => .error e
                  | .ok items => adzunaLoop location items []) =
              (match pyGetD payload "results" (.arr []) with
                | .error e => Except.error e
                | .ok resultsV =>
                  match pyIter resultsV with
                  | .error e => .error e
                  | .ok items => adzunaLoop location items []) := rfl
          rw [hred, h1]
        rw [s1] at h
        exact Except.noConfusion h
      | ok resultsV =>
        have s1 : search_jobs_adzuna true keywords location limit (some payload)
            = match pyIter resultsV with
              | .error e => .error e
              | .ok items => adzunaLoop location items [] := by
          rw [search_jobs_adzuna]
          have hred : (if !true then Except.ok ([] : List JobItem)
              else match pyGetD payload "results" (.arr []) with
                | .error e => .error e
                | .ok resultsV =>
                  match pyIter resultsV with
                  | .error e => .error e
                  | .ok items => adzunaLoop location items []) =
              (match pyGetD payload "results" (.arr []) with
                | .error e => Except.error e
                | .ok resultsV =>
                  match pyIter resultsV with
                  | .error e => .error e
                  | .ok items => adzunaLoop location items []) := rfl
          rw [hred, h1]
        cases h2 : pyIter resultsV with
        | error e =>
          rw [h2] at s1
          rw [s1] at h
          exact Except.noConfusion h
        | ok items =>
          rw [h2] at s1
          rw [s1] at h
          exact adzunaLoop_ok_mem location _ (adzunaMapItem_desc_le location)
            items [] jobs hnil h

/-! ### C5: description length and HTML stripping -/

/-- C5 counterexample: an Adzuna payload whose description carries HTML
markup.  The mapped posting keeps the raw `"<b>Great</b>"`, while the
claimed strip-then-truncate pipeline would give `"Great"`: the Adzuna
adapter truncates without stripping HTML (the free adapters do strip —
`strip_html` is never applied in `search_jobs_adzuna`). -/
theorem adzuna_description_not_stripped_cex :
    search_jobs_adzuna true "python" none 20
        (some (.obj [("results", .arr [.obj [("description", .str "<b>Great</b>")]])]))
      = .ok [⟨"Unknown Role", "Unknown Company", "Remote", "<b>Great</b>", "",
          some "Adzuna"⟩] ∧
    strTake (strip_html "<b>Great</b>") 400 = "Great" ∧
    ("<b>Great</b>" : String) ≠ strTake (strip_html "<b>Great</b>") 400 := by
  refine ⟨rfl, rfl, ?_⟩
  decide

/-- C5 (amended): every posting produced by any adapter (on any provider
payload that maps without a Python exception) has description length at
most 400 characters.  HTML is stripped before truncation by the Remotive,
Remote OK and Arbeitnow adapters (their description is
`_strip_html(raw)[:400]`), but the Adzuna adapter truncates the raw
provider description without stripping HTML. -/
theorem adapters_description_le_400 :
    (∀ (keywords : String) (limit : Int) (response : Option JVal) (jobs : List JobItem),
      search_jobs_remotive keywords limit response = .ok jobs →
        ∀ j ∈ jobs, j.description.length ≤ 400) ∧
    (∀ (keywords : String) (limit : Int) (response : Option JVal) (jobs : List JobItem),
      search_jobs_remoteok keywords limit response = .ok jobs →
        ∀ j ∈ jobs, j.description.length ≤ 400) ∧
    (∀ (keywords : String) (limit : Int) (response : Option JVal) (jobs : List JobItem),
      search_jobs_arbeitnow keywords limit response = .ok jobs →
        ∀ j ∈ jobs, j.description.length ≤ 400) ∧
    (∀ (creds : Bool) (keywords : String) (location : Option String) (limit : Int)
        (response : Option JVal) (jobs : List JobItem),
      search_jobs_adzuna creds keywords location limit response = .ok jobs →
        ∀ j ∈ jobs, j.description.length ≤ 400) :=
  ⟨search_jobs_remotive_desc_le, search_jobs_remoteok_desc_le,
   search_jobs_arbeitnow_desc_le, search_jobs_adzuna_desc_le⟩

theorem adapters_description_le_400_witness :
    (⟨"Dev", "Co", "Remote", "Great job", "http://x", some "Remotive"⟩
      : JobItem).description.length ≤ 400 :=
  adapters_description_le_400.1 "" 20
    (some (.obj [("jobs", .arr [.obj [("title", .str "Dev"),
      ("company_name", .str "Co"), ("candidate_required_location", .str "Remote"),
      ("description", .str "Great job"), ("url", .str "http://x")]])]))
    [⟨"Dev", "Co", "Remote", "Great job", "http://x", some "Remotive"⟩]
    (by rfl)
    ⟨"Dev", "Co", "Remote", "Great job", "http://x", some "Remotive"⟩
    (by simp)

/-! ### C6: adapters never raise -/

/-- C6 counterexample: a syntactically valid JSON body whose top level is a
list rather than the expected object.  `payload.get("jobs", [])` raises
AttributeError in `search_jobs_remotive` — the exception propagates to the
caller instead of resolving to an empty sequence. -/
theorem remotive_nonobject_payload_raises_cex :
    search_jobs_remotive "python" 20 (some (.arr [])) = .error .attributeError := rfl

/-- C6 (amended): every adapter resolves a transport error, timeout,
non-2xx response or unparsable body (all collapsed by the source into the
same `except` branch, modelled as an absent payload) to an empty sequence
rather than an exception; but a malformed payload whose JSON parses to an
unexpected top-level type is not always tolerated — Remotive and Adzuna
raise AttributeError on a non-object payload (see the counterexample). -/
theorem adapters_transport_failure_empty (keywords : String) (location : Option String)
    (limit : Int) (creds : Bool) :
    search_jobs_remotive keywords limit none = .ok [] ∧
    search_jobs_remoteok keywords limit none = .ok [] ∧
    search_jobs_arbeitnow keywords limit none = .ok [] ∧
    search_jobs_adzuna creds keywords location limit none = .ok [] := by
  refine ⟨rfl, rfl, rfl, ?_⟩
  cases creds <;> rfl

end SmartCV
